import Mathlib

/-!
Verification of the kusto2md clipboard-to-markdown converter.

Every definition below is a shallow embedding of the corresponding Python
function in kusto2md.py, working on `String` and `List Char`. Stateful
HTML-parser callbacks become explicit state records folded over a stream of
parser events. Fallible extractors return `Option`. Python stdlib helpers
used by the source (str.strip, str.split, str.splitlines, str.ljust,
html.unescape, the event-driven HTMLParser tokenizer, and the two regular
expressions) are embedded with the behaviour they have on the inputs
appearing in this development; each such embedding carries a doc comment
saying what it models.
-/

namespace Kusto2md

/-- Models the whitespace class used by Python str.strip and re whitespace
on the characters occurring in this development (ASCII whitespace plus the
non-breaking space U+00A0). -/
def isPySpace (c : Char) : Bool :=
  c = ' ' || c = '\t' || c = '\n' || c = '\r' || c = '\x0b' || c = '\x0c' || c = '\xa0'

/-- Models Python str.strip with no arguments, at the character-list level. -/
def pyStripL (l : List Char) : List Char :=
  ((l.dropWhile isPySpace).reverse.dropWhile isPySpace).reverse

/-- Models Python str.strip with no arguments. -/
def pyStrip (s : String) : String := String.mk (pyStripL s.data)

/-- Index of the first occurrence of `pat` in a character list, as in
Python str.find, with `none` for absence. -/
def firstOccur (pat : List Char) : List Char → Option Nat
  | [] => if pat.isEmpty then some 0 else none
  | c :: cs => if pat.isPrefixOf (c :: cs) then some 0 else (firstOccur pat cs).map (· + 1)

/-- Models the Python substring test `pat in s`. -/
def hasSubstr (s pat : String) : Bool := (firstOccur pat.data s.data).isSome

/-- Models Python sep.join(xs). -/
def pyJoin (sep : String) (xs : List String) : String :=
  String.mk (List.intercalate sep.data (xs.map String.data))

/-- Models Python s.replace(a, b) for single characters `a`, `b`. -/
def replaceChar (a b : Char) (l : List Char) : List Char :=
  l.map (fun c => if c = a then b else c)

/-- Models Python s.ljust(w): pad on the right with spaces up to width `w`. -/
def ljust (s : String) (w : Nat) : String :=
  s ++ String.mk (List.replicate (w - s.length) ' ')

/-- Named character references handled by the html.unescape embedding. -/
def entityTable : List (List Char × Char) :=
  [("amp;".data, '&'), ("lt;".data, '<'), ("gt;".data, '>'),
   ("quot;".data, '"'), ("apos;".data, '\''), ("nbsp;".data, '\xa0')]

/-- Given the characters following an ampersand, return the decoded
character and the number of characters consumed, for the named references
of `entityTable` and decimal numeric references. -/
def matchEntity (cs : List Char) : Option (Char × Nat) :=
  match entityTable.find? (fun e => e.1.isPrefixOf cs) with
  | some e => some (e.2, e.1.length)
  | none =>
    match cs with
    | '#' :: rest =>
      let ds := rest.takeWhile (·.isDigit)
      if ds.isEmpty then none
      else if (rest.drop ds.length).head? = some ';' then
        some (Char.ofNat (ds.foldl (fun a c => a * 10 + (c.toNat - 48)) 0), ds.length + 2)
      else none
    | _ => none

/-- Models Python html.unescape restricted to the references of
`matchEntity`; an ampersand that does not start a recognized reference
passes through unchanged, as in Python for unknown references. -/
def pyUnescapeAux : Nat → List Char → List Char
  | 0, l => l
  | _ + 1, [] => []
  | f + 1, c :: rest =>
    if c = '&' then
      match matchEntity rest with
      | some (r, k) => r :: pyUnescapeAux f (rest.drop k)
      | none => '&' :: pyUnescapeAux f rest
    else c :: pyUnescapeAux f rest

/-- Character-list form of the html.unescape embedding. -/
def pyUnescapeL (l : List Char) : List Char := pyUnescapeAux l.length l

/-- String form of the html.unescape embedding. -/
def pyUnescape (s : String) : String := String.mk (pyUnescapeL s.data)

/-- Characters that terminate a URL match of URL_RE, namely whitespace and
the characters excluded by its negated class. -/
def urlStop (c : Char) : Bool :=
  isPySpace c || c = ')' || c = ']' || c = '>' || c = '"'

/-- Length of the match of `URL_RE` at the start of `cs`, if any: a literal
scheme followed by one or more characters outside `urlStop`. -/
def urlMatchLen (cs : List Char) : Option Nat :=
  if "https://".data.isPrefixOf cs then
    let run := (cs.drop 8).takeWhile (fun c => !urlStop c)
    if run.isEmpty then none else some (8 + run.length)
  else if "http://".data.isPrefixOf cs then
    let run := (cs.drop 7).takeWhile (fun c => !urlStop c)
    if run.isEmpty then none else some (7 + run.length)
  else none

/-- Embedding of linkify_url from kusto2md.py. -/
def linkify_url (url : String) : String :=
  let stripped := url.data.reverse.dropWhile (· = '/') |>.reverse
  let parts := stripped.splitOn '/'
  let label := if parts.length ≥ 2 then List.intercalate ['/'] (parts.drop (parts.length - 2)) else stripped
  let label := if label.length > 60 then label.take 57 ++ "...".data else label
  String.mk (['['] ++ label ++ [']', '('] ++ url.data ++ [')'])

/-- Models URL_RE.sub with linkify_url as replacement: scan left to right,
replace each leftmost match, continue after it. The fuel argument bounds
the recursion and is at least the list length at every call site, which
suffices because every step consumes at least one character. -/
def urlSubAux : Nat → List Char → List Char
  | 0, l => l
  | _ + 1, [] => []
  | f + 1, c :: rest =>
    match urlMatchLen (c :: rest) with
    | some k => (linkify_url (String.mk ((c :: rest).take k))).data ++ urlSubAux f ((c :: rest).drop k)
    | none => c :: urlSubAux f rest

/-- Models URL_RE.search as a Boolean: some position of the list starts a
match. -/
def hasUrlMatch : List Char → Bool
  | [] => false
  | c :: rest => (urlMatchLen (c :: rest)).isSome || hasUrlMatch rest

/-- One cell of the linkification pass of rows_to_markdown: substitute if
URL_RE.search finds a match, otherwise leave the cell unchanged. -/
def linkifyCell (cell : String) : String :=
  if hasUrlMatch cell.data then String.mk (urlSubAux cell.data.length cell.data) else cell

/-- The `max_cols` computation of rows_to_markdown. -/
def maxCols (rows : List (List String)) : Nat :=
  rows.foldl (fun a r => max a r.length) 0

/-- The padding loop of rows_to_markdown on one row: append empty cells
until the row has `n` cells. -/
def padRow (n : Nat) (row : List String) : List String :=
  row ++ List.replicate (n - row.length) ""

/-- The padding pass of rows_to_markdown. -/
def padStep (rows : List (List String)) : List (List String) :=
  rows.map (padRow (maxCols rows))

/-- The linkification pass of rows_to_markdown: row 0 is left alone, every
cell of every later row goes through `linkifyCell`. -/
def linkifyStep : List (List String) → List (List String)
  | [] => []
  | h :: t => h :: t.map (List.map linkifyCell)

/-- State of the mutable `rows` argument of rows_to_markdown after the
padding and linkification loops have run. -/
def processedRows (rows : List (List String)) : List (List String) :=
  linkifyStep (padStep rows)

/-- The first col_widths list comprehension of rows_to_markdown. -/
def colWidthsRaw (rows : List (List String)) (n : Nat) : List Nat :=
  (List.range n).map (fun c => (rows.map (fun row => (row[c]?.getD "").length)).foldl max 0)

/-- The second col_widths list comprehension of rows_to_markdown: floor
every width at 3. -/
def colWidths (rows : List (List String)) (n : Nat) : List Nat :=
  (colWidthsRaw rows n).map (fun w => max w 3)

/-- The local fmt function of rows_to_markdown. -/
def fmtRow (ws : List Nat) (row : List String) : String :=
  "| " ++ pyJoin " | " (List.zipWith ljust row ws) ++ " |"

/-- The separator line of rows_to_markdown. -/
def sepRow (ws : List Nat) : String :=
  "| " ++ pyJoin " | " (ws.map (fun w => String.mk (List.replicate w '-'))) ++ " |"

/-- The list of output lines of rows_to_markdown: header, separator, data. -/
def renderLines (p : List (List String)) (ws : List Nat) : List String :=
  match p with
  | [] => []
  | h :: t => fmtRow ws h :: sepRow ws :: t.map (fmtRow ws)

/-- Embedding of rows_to_markdown with the mutation made explicit: the
first component is the state of the caller's `rows` list after the call,
the second is the returned markdown string. -/
def rowsToMarkdownS (rows : List (List String)) : List (List String) × String :=
  match rows with
  | [] => ([], "")
  | _ :: _ =>
    let p := processedRows rows
    let ws := colWidths p (maxCols rows)
    (p, pyJoin "\n" (renderLines p ws))

/-- The return value of rows_to_markdown. -/
def rows_to_markdown (rows : List (List String)) : String :=
  (rowsToMarkdownS rows).2

/-- Python truthiness of an optional string: present and non-empty. -/
def optTruthy : Option String → Bool
  | none => false
  | some s => s != ""

/-- Embedding of build_markdown from kusto2md.py. -/
def build_markdown (execute_links : List (String × String)) (cluster_url : Option String)
    (query : Option String) (table_rows : Option (List (List String))) : String :=
  let headerParts : List String :=
    if !execute_links.isEmpty || optTruthy cluster_url then
      ["### Query\n"]
      ++ (match cluster_url with
          | some cu => if cu != "" then ["> **Cluster:** " ++ cu ++ "\n"] else []
          | none => [])
      ++ (let link_items := (execute_links.filter (fun lu => hasSubstr lu.2 "query=")).map
            (fun lu => "[" ++ lu.1 ++ "](" ++ lu.2 ++ ")")
          if !execute_links.isEmpty && !link_items.isEmpty then
            ["> **Open in:** " ++ pyJoin " | " link_items ++ "\n"]
          else [])
    else []
  let queryParts : List String :=
    match query with
    | some q =>
      if q != "" then
        (if execute_links.isEmpty && !optTruthy cluster_url then ["### Query\n"] else [])
          ++ ["```kql\n" ++ q ++ "\n```"]
      else []
    | none => []
  let tableParts : List String :=
    match table_rows with
    | some trs => if !trs.isEmpty then ["\n### Results\n", rows_to_markdown trs] else []
    | none => []
  pyJoin "\n" (headerParts ++ queryParts ++ tableParts)

/-- Models Python str.splitlines for line breaks made of line feed,
carriage return, or the two-character sequence carriage return line feed. -/
def splitLinesAux (acc : List Char) : List Char → List (List Char)
  | [] => if acc.isEmpty then [] else [acc.reverse]
  | '\r' :: '\n' :: rest => acc.reverse :: splitLinesAux [] rest
  | c :: rest =>
    if c = '\n' || c = '\r' then acc.reverse :: splitLinesAux [] rest
    else splitLinesAux (c :: acc) rest

/-- String form of the str.splitlines embedding. -/
def pySplitlines (s : String) : List String :=
  (splitLinesAux [] s.data).map String.mk

/-- Row construction of the plain-text fallback branch of main: strip the
clipboard text, keep the non-blank lines, split each on tab. -/
def tsvRows (text : String) : List (List String) :=
  let lines := (pySplitlines (pyStrip text)).filter (fun l => pyStrip l != "")
  lines.map (fun l => (l.data.splitOn '\t').map String.mk)

/-- Markdown produced by the plain-text fallback branch of main. -/
def fallbackMarkdown (text : String) : String :=
  let rows := tsvRows text
  if rows.isEmpty then "" else rows_to_markdown rows

/-- Events reported by the stdlib event-driven HTML scanner: start tag,
end tag, character data with references already decoded. -/
inductive HEvent where
  | tagOpen (name : List Char)
  | tagClose (name : List Char)
  | text (txt : List Char)
deriving DecidableEq

/-- Tag-name characters of the scanner. -/
def isNameChar (c : Char) : Bool := c.isAlphanum

/-- Lower-case a tag name, as the stdlib scanner does. -/
def lowerName (l : List Char) : List Char := l.map Char.toLower

/-- Models the stdlib HTMLParser tokenizer, with character references
converted inside data, on fragments free of comments, declarations, cdata
sections, and quoted attribute values containing a closing angle bracket:
attributes are skipped up to the closing angle bracket, and an incomplete
trailing tag is buffered and never reported, as when close is not called.
The fuel argument is at least the list length at every call site, which
suffices because every step consumes at least one character. -/
def tokAux : Nat → List Char → List HEvent
  | 0, _ => []
  | _ + 1, [] => []
  | f + 1, c :: rest =>
    if c = '<' then
      match rest with
      | '/' :: r2 =>
        match firstOccur ['>'] r2 with
        | none => []
        | some j => HEvent.tagClose (lowerName (r2.takeWhile isNameChar)) :: tokAux f (r2.drop (j + 1))
      | _ =>
        if (rest.head?.map isNameChar).getD false then
          match firstOccur ['>'] rest with
          | none => []
          | some j => HEvent.tagOpen (lowerName (rest.takeWhile isNameChar)) :: tokAux f (rest.drop (j + 1))
        else HEvent.text ['<'] :: tokAux f rest
    else
      let chunk := (c :: rest).takeWhile (fun x => x ≠ '<')
      HEvent.text (pyUnescapeL chunk) :: tokAux f ((c :: rest).drop chunk.length)

/-- Event stream of an HTML fragment. -/
def tokenize (l : List Char) : List HEvent := tokAux l.length l

/-- State of the TextExtractor parser of kusto2md.py: accumulated lines,
chunks of the current line, and the style-skip flag. -/
structure TextExtractor where
  lines : List (List Char)
  currentLine : List (List Char)
  skip : Bool
deriving DecidableEq

/-- Initial TextExtractor state. -/
def TextExtractor.init : TextExtractor := ⟨[], [], false⟩

/-- The private flush method of TextExtractor: emit the joined current
line when non-empty, then reset it. -/
def flushLine (st : TextExtractor) : TextExtractor :=
  let t := st.currentLine.flatten
  { st with lines := if t.isEmpty then st.lines else st.lines ++ [t], currentLine := [] }

/-- The three handler callbacks of TextExtractor, as one step function over
scanner events. -/
def TextExtractor.step (st : TextExtractor) : HEvent → TextExtractor
  | .tagOpen name =>
    let st := if name = "style".data then { st with skip := true } else st
    if name = "p".data || name = "br".data then flushLine st else st
  | .tagClose name => if name = "style".data then { st with skip := false } else st
  | .text d => if st.skip then st else { st with currentLine := st.currentLine ++ [d] }

/-- The get_text method of TextExtractor: flush, then join the lines with
line feeds. -/
def TextExtractor.getText (st : TextExtractor) : List Char :=
  List.intercalate ['\n'] (flushLine st).lines

/-- Feeding a fragment to a fresh TextExtractor and reading its text. -/
def textFromHtml (l : List Char) : List Char :=
  ((tokenize l).foldl TextExtractor.step TextExtractor.init).getText

/-- The opening structural marker of the query block. -/
def queryMarker : List Char := "<div data-type=\"query\">".data

/-- The closing tag ending the query block match. -/
def divClose : List Char := "</div>".data

/-- Models the first group of re.search on the query pattern of
extract_query: the text between the first occurrence of the opening marker
and the first closing div tag after it, taking the non-greedy leftmost
match. -/
def queryGroup (cs : List Char) : Option (List Char) :=
  match firstOccur queryMarker cs with
  | none => none
  | some i =>
    let after := cs.drop (i + queryMarker.length)
    match firstOccur divClose after with
    | none => none
    | some j => some (after.take j)

/-- Embedding of extract_query from kusto2md.py. -/
def extract_query (html : String) : Option String :=
  match queryGroup html.data with
  | none => none
  | some inner =>
    let t := replaceChar '\xa0' ' ' (textFromHtml inner)
    if (pyStripL t).isEmpty then none else some (String.mk (pyStripL t))

/-- State of the TableExtractor parser of kusto2md.py. -/
structure TableExtractor where
  rows : List (List String)
  inTd : Bool
  currentCell : List (List Char)
  currentRow : List String
deriving DecidableEq

/-- Initial TableExtractor state. -/
def TableExtractor.init : TableExtractor := ⟨[], false, [], []⟩

/-- The three handler callbacks of TableExtractor, as one step function
over scanner events. -/
def TableExtractor.step (st : TableExtractor) : HEvent → TableExtractor
  | .tagOpen name =>
    if name = "td".data then { st with inTd := true, currentCell := [] }
    else if name = "tr".data then { st with currentRow := [] }
    else st
  | .tagClose name =>
    if name = "td".data then
      { st with inTd := false,
                currentRow := st.currentRow ++ [String.mk (pyStripL st.currentCell.flatten)] }
    else if name = "tr".data then
      if st.currentRow.isEmpty then st else { st with rows := st.rows ++ [st.currentRow] }
    else st
  | .text d => if st.inTd then { st with currentCell := st.currentCell ++ [d] } else st

/-- Feeding a fragment to a fresh TableExtractor and reading its rows. -/
def tableRowsOf (l : List Char) : List (List String) :=
  ((tokenize l).foldl TableExtractor.step TableExtractor.init).rows

/-- The literal start of an opening table tag. -/
def tableOpen : List Char := "<table".data

/-- The closing table tag. -/
def tableClose : List Char := "</table>".data

/-- Models the first group of re.search on the table pattern of
extract_table: from the first occurrence of the opening literal, the
attribute run extends to the first closing angle bracket, and the group
runs to the first closing table tag after it. When the leftmost attempt
fails no later attempt can succeed, so one attempt is faithful. -/
def tableGroup (cs : List Char) : Option (List Char) :=
  match firstOccur tableOpen cs with
  | none => none
  | some i =>
    let after := cs.drop (i + 6)
    match firstOccur ['>'] after with
    | none => none
    | some j =>
      let inner := after.drop (j + 1)
      match firstOccur tableClose inner with
      | none => none
      | some k => some (inner.take k)

/-- Embedding of extract_table from kusto2md.py. -/
def extract_table (html : String) : Option (List (List String)) :=
  match tableGroup html.data with
  | none => none
  | some inner =>
    let rows := (tableRowsOf inner).map
      (fun row => row.map (fun cell => String.mk (replaceChar '\xa0' ' ' cell.data)))
    if rows.isEmpty then none else some rows

/-- The literal start of a matched href attribute. -/
def hrefMarker : List Char := "href=\"".data

/-- Match of the href regex of extract_cluster_url at the start of `cs`:
returns the captured URL characters and the total number of characters
consumed by the whole match. -/
def hrefAt (cs : List Char) : Option (List Char × Nat) :=
  if hrefMarker.isPrefixOf cs then
    let after := cs.drop 6
    let scheme :=
      if "https://".data.isPrefixOf after then some 8
      else if "http://".data.isPrefixOf after then some 7
      else none
    match scheme with
    | none => none
    | some k =>
      let run := (after.drop k).takeWhile (fun c => c ≠ '"')
      if run.isEmpty then none
      else if (after.drop (k + run.length)).head? = some '"' then
        some (after.take (k + run.length), 6 + k + run.length + 1)
      else none
  else none

/-- Models re.findall on the href pattern: non-overlapping leftmost
matches, scanning resumes after each match. The fuel argument is at least
the list length at every call site. -/
def hrefScanAux : Nat → List Char → List (List Char)
  | 0, _ => []
  | _ + 1, [] => []
  | f + 1, c :: rest =>
    match hrefAt (c :: rest) with
    | some (url, k) => url :: hrefScanAux f ((c :: rest).drop k)
    | none => hrefScanAux f rest

/-- All captured href URLs of a fragment, in order. -/
def hrefFindall (l : List Char) : List (List Char) := hrefScanAux l.length l

/-- The header region scanned by extract_cluster_url: the part before the
query marker, or the first 3000 characters when the marker is absent. -/
def headerRegionCluster (cs : List Char) : List Char :=
  match firstOccur queryMarker cs with
  | some i => cs.take i
  | none => cs.take 3000

/-- The header region scanned by extract_execute_links: the part before
the query marker, or the first 2000 characters when the marker is absent. -/
def headerRegionLinks (cs : List Char) : List Char :=
  match firstOccur queryMarker cs with
  | some i => cs.take i
  | none => cs.take 2000

/-- The result loop of extract_cluster_url: decode each URL and return the
first one without the query parameter marker. -/
def firstNonQuery : List (List Char) → Option String
  | [] => none
  | u :: rest =>
    let url := pyUnescapeL u
    if (firstOccur "query=".data url).isSome then firstNonQuery rest
    else some (String.mk url)

/-- Embedding of extract_cluster_url from kusto2md.py. -/
def extract_cluster_url (html : String) : Option String :=
  firstNonQuery (hrefFindall (headerRegionCluster html.data))

/-- Cell of a row matrix at a row and column index, when both exist. -/
def cellAt (m : List (List String)) (r c : Nat) : Option String :=
  m[r]?.bind (fun row => row[c]?)

theorem mem_of_mem_intersperse {α : Type} {sep m : α} :
    ∀ {l : List α}, m ∈ l.intersperse sep → m = sep ∨ m ∈ l
  | [], h => by simp at h
  | [a], h => by
    rw [List.intersperse_singleton] at h
    exact Or.inr h
  | a :: b :: t, h => by
    rw [List.intersperse_cons_cons] at h
    rcases List.mem_cons.mp h with rfl | h
    · exact Or.inr (List.mem_cons_self _ _)
    rcases List.mem_cons.mp h with rfl | h
    · exact Or.inl rfl
    · rcases mem_of_mem_intersperse h with h' | h'
      · exact Or.inl h'
      · exact Or.inr (List.mem_cons_of_mem _ h')

theorem mem_intersperse_of_mem {α : Type} {sep m : α} :
    ∀ {l : List α}, m ∈ l → m ∈ l.intersperse sep
  | [], h => by simp at h
  | [a], h => by rw [List.intersperse_singleton]; exact h
  | a :: b :: t, h => by
    rw [List.intersperse_cons_cons]
    rcases List.mem_cons.mp h with rfl | h
    · exact List.mem_cons_self _ _
    · exact List.mem_cons_of_mem _ (List.mem_cons_of_mem _ (mem_intersperse_of_mem h))

theorem mem_of_mem_intercalate {α : Type} {c : α} {sep : List α} {ls : List (List α)}
    (h : c ∈ List.intercalate sep ls) : c ∈ sep ∨ ∃ l ∈ ls, c ∈ l := by
  rw [List.intercalate] at h
  obtain ⟨m, hm, hc⟩ := List.mem_flatten.mp h
  rcases mem_of_mem_intersperse hm with rfl | hmem
  · exact Or.inl hc
  · exact Or.inr ⟨m, hmem, hc⟩

theorem mem_intercalate_of_mem {α : Type} {c : α} {sep : List α} {ls : List (List α)}
    {l : List α} (hl : l ∈ ls) (hc : c ∈ l) : c ∈ List.intercalate sep ls := by
  rw [List.intercalate]
  exact List.mem_flatten.mpr ⟨l, mem_intersperse_of_mem hl, hc⟩

theorem mem_of_mem_splitOn {x c : Char} {l p : List Char}
    (hp : p ∈ l.splitOn x) (hc : c ∈ p) : c ∈ l := by
  have h1 : c ∈ List.intercalate [x] (l.splitOn x) := mem_intercalate_of_mem hp hc
  rwa [show List.intercalate [x] (l.splitOn x) = [x].intercalate (l.splitOn x) from rfl,
    List.intercalate_splitOn] at h1

theorem mem_zipWith {α β γ : Type} {f : α → β → γ} {x : γ} :
    ∀ {as : List α} {bs : List β}, x ∈ List.zipWith f as bs → ∃ a ∈ as, ∃ b ∈ bs, x = f a b
  | [], _, h => by simp at h
  | _ :: _, [], h => by simp at h
  | a :: as, b :: bs, h => by
    rw [List.zipWith_cons_cons] at h
    rcases List.mem_cons.mp h with rfl | h
    · exact ⟨a, List.mem_cons_self _ _, b, List.mem_cons_self _ _, rfl⟩
    · obtain ⟨a', ha, b', hb, hx⟩ := mem_zipWith h
      exact ⟨a', List.mem_cons_of_mem _ ha, b', List.mem_cons_of_mem _ hb, hx⟩

theorem data_mk (l : List Char) : (String.mk l).data = l := rfl

theorem pyJoin_data (sep : String) (xs : List String) :
    (pyJoin sep xs).data = List.intercalate sep.data (xs.map String.data) := rfl

theorem mem_rstripSlash {c : Char} {u : String}
    (h : c ∈ (u.data.reverse.dropWhile (· = '/')).reverse) : c ∈ u.data :=
  List.mem_reverse.mp ((List.dropWhile_sublist _).mem (List.mem_reverse.mp h))

theorem mem_label_of {c : Char} {S : List Char}
    (h : c ∈ (if (S.splitOn '/').length ≥ 2 then
                List.intercalate ['/'] ((S.splitOn '/').drop ((S.splitOn '/').length - 2))
              else S)) : c ∈ S ∨ c = '/' := by
  split_ifs at h with hp
  · rcases mem_of_mem_intercalate h with hc | ⟨l, hl, hcl⟩
    · right; simpa using hc
    · exact Or.inl (mem_of_mem_splitOn (List.mem_of_mem_drop hl) hcl)
  · exact Or.inl h

theorem mem_label2_of {c : Char} {L : List Char}
    (h : c ∈ (if L.length > 60 then L.take 57 ++ "...".data else L)) : c ∈ L ∨ c = '.' := by
  split_ifs at h with h60
  · rcases List.mem_append.mp h with h' | h'
    · exact Or.inl (List.mem_of_mem_take h')
    · have h'' : c ∈ ['.', '.', '.'] := h'
      right; simpa using h''
  · exact Or.inl h

theorem mem_linkify_url {c : Char} {u : String} (h : c ∈ (linkify_url u).data) :
    c ∈ u.data ∨ c ∈ ['[', ']', '(', ')', '.', '/'] := by
  simp only [linkify_url, data_mk, List.mem_append, List.mem_cons, List.not_mem_nil,
    or_false, or_assoc] at h
  rcases h with rfl | h
  · right; simp
  rcases h with hL | h
  · rcases mem_label2_of hL with hL1 | rfl
    · rcases mem_label_of hL1 with hS | rfl
      · exact Or.inl (mem_rstripSlash hS)
      · right; simp
    · right; simp
  rcases h with rfl | h
  · right; simp
  rcases h with rfl | h
  · right; simp
  rcases h with hu | rfl
  · exact Or.inl hu
  · right; simp

theorem mem_urlSubAux : ∀ (f : Nat) (cs : List Char) (c : Char),
    c ∈ urlSubAux f cs → c ∈ cs ∨ c ∈ ['[', ']', '(', ')', '.', '/'] := by
  intro f
  induction f with
  | zero => intro cs c h; exact Or.inl (by simpa [urlSubAux] using h)
  | succ f ih =>
    intro cs c h
    match cs with
    | [] => simp [urlSubAux] at h
    | x :: rest =>
      cases hm : urlMatchLen (x :: rest) with
      | none =>
        simp only [urlSubAux, hm] at h
        rcases List.mem_cons.mp h with rfl | h
        · exact Or.inl (List.mem_cons_self _ _)
        · rcases ih rest c h with h' | h'
          · exact Or.inl (List.mem_cons_of_mem _ h')
          · exact Or.inr h'
      | some k =>
        simp only [urlSubAux, hm] at h
        rcases List.mem_append.mp h with h | h
        · rcases mem_linkify_url h with h' | h'
          · exact Or.inl (List.mem_of_mem_take (l := x :: rest) h')
          · exact Or.inr h'
        · rcases ih _ c h with h' | h'
          · exact Or.inl (List.mem_of_mem_drop h')
          · exact Or.inr h'

theorem linkifyCell_no_newline {cell : String} (h : '\n' ∉ cell.data) :
    '\n' ∉ (linkifyCell cell).data := by
  unfold linkifyCell
  split
  · intro hmem
    rw [data_mk] at hmem
    rcases mem_urlSubAux _ _ _ hmem with h' | h'
    · exact h h'
    · simp at h'
  · exact h

theorem ljust_no_newline {s : String} {w : Nat} (h : '\n' ∉ s.data) :
    '\n' ∉ (ljust s w).data := by
  unfold ljust
  rw [String.data_append]
  intro hm
  rcases List.mem_append.mp hm with h' | h'
  · exact h h'
  · rw [data_mk] at h'
    exact absurd (List.eq_of_mem_replicate h') (by decide)

theorem fmtRow_no_newline {ws : List Nat} {row : List String}
    (h : ∀ cell ∈ row, '\n' ∉ cell.data) : '\n' ∉ (fmtRow ws row).data := by
  unfold fmtRow
  rw [String.data_append, String.data_append]
  intro hm
  rcases List.mem_append.mp hm with hm | hm
  rotate_left
  · revert hm; decide
  rcases List.mem_append.mp hm with hm | hm
  · revert hm; decide
  · rw [pyJoin_data] at hm
    rcases mem_of_mem_intercalate hm with hm | ⟨l, hl, hcl⟩
    · revert hm; decide
    · obtain ⟨s, hs, rfl⟩ := List.mem_map.mp hl
      obtain ⟨cell, hcell, w, _, rfl⟩ := mem_zipWith hs
      exact ljust_no_newline (h cell hcell) hcl

theorem sepRow_no_newline {ws : List Nat} : '\n' ∉ (sepRow ws).data := by
  unfold sepRow
  rw [String.data_append, String.data_append]
  intro hm
  rcases List.mem_append.mp hm with hm | hm
  rotate_left
  · revert hm; decide
  rcases List.mem_append.mp hm with hm | hm
  · revert hm; decide
  · rw [pyJoin_data] at hm
    rcases mem_of_mem_intercalate hm with hm | ⟨l, hl, hcl⟩
    · revert hm; decide
    · obtain ⟨s, hs, rfl⟩ := List.mem_map.mp hl
      obtain ⟨w, _, rfl⟩ := List.mem_map.mp hs
      rw [data_mk] at hcl
      exact absurd (List.eq_of_mem_replicate hcl) (by decide)

theorem le_foldl_max : ∀ (rows : List (List String)) (a : Nat),
    a ≤ rows.foldl (fun x r => max x r.length) a
  | [], _ => le_refl _
  | r :: t, a => le_trans (le_max_left a r.length) (le_foldl_max t _)

theorem length_le_foldl_max : ∀ {rows : List (List String)} {row : List String} (a : Nat),
    row ∈ rows → row.length ≤ rows.foldl (fun x r => max x r.length) a
  | r :: t, row, a, h => by
    rcases List.mem_cons.mp h with rfl | h
    · exact le_trans (le_max_right a row.length) (le_foldl_max t _)
    · rw [List.foldl_cons]
      exact length_le_foldl_max _ h

theorem length_le_maxCols {rows : List (List String)} {row : List String}
    (h : row ∈ rows) : row.length ≤ maxCols rows :=
  length_le_foldl_max 0 h

theorem length_padRow {n : Nat} {row : List String} (h : row.length ≤ n) :
    (padRow n row).length = n := by
  simp only [padRow, List.length_append, List.length_replicate]
  omega

theorem processedRows_cons (h : List String) (t : List (List String)) :
    processedRows (h :: t) =
      padRow (maxCols (h :: t)) h ::
        (t.map (padRow (maxCols (h :: t)))).map (List.map linkifyCell) := rfl

theorem processed_row_lengths {rows : List (List String)} :
    ∀ row ∈ processedRows rows, row.length = maxCols rows := by
  match rows with
  | [] => intro row h; simp [processedRows, padStep, linkifyStep] at h
  | h :: t =>
    intro row hr
    rw [processedRows_cons] at hr
    rcases List.mem_cons.mp hr with rfl | hr
    · exact length_padRow (length_le_maxCols (List.mem_cons_self _ _))
    · obtain ⟨row', hrow', rfl⟩ := List.mem_map.mp hr
      obtain ⟨row₀, hrow₀, rfl⟩ := List.mem_map.mp hrow'
      rw [List.length_map]
      exact length_padRow (length_le_maxCols (List.mem_cons_of_mem _ hrow₀))

theorem processed_cells_no_newline {rows : List (List String)}
    (hnl : ∀ row ∈ rows, ∀ cell ∈ row, '\n' ∉ cell.data) :
    ∀ row ∈ processedRows rows, ∀ cell ∈ row, '\n' ∉ cell.data := by
  have hpad : ∀ {n : Nat} {row : List String}, (∀ cell ∈ row, '\n' ∉ cell.data) →
      ∀ cell ∈ padRow n row, '\n' ∉ cell.data := by
    intro n row hrow cell hc
    rcases List.mem_append.mp hc with hc | hc
    · exact hrow cell hc
    · rw [List.eq_of_mem_replicate hc]
      simp
  match rows with
  | [] => intro row h; simp [processedRows, padStep, linkifyStep] at h
  | h :: t =>
    intro row hr
    rw [processedRows_cons] at hr
    rcases List.mem_cons.mp hr with rfl | hr
    · exact hpad (hnl h (List.mem_cons_self _ _))
    · obtain ⟨row', hrow', rfl⟩ := List.mem_map.mp hr
      obtain ⟨row₀, hrow₀, rfl⟩ := List.mem_map.mp hrow'
      intro cell hc
      obtain ⟨cell₀, hc₀, rfl⟩ := List.mem_map.mp hc
      exact linkifyCell_no_newline
        (hpad (hnl row₀ (List.mem_cons_of_mem _ hrow₀)) cell₀ hc₀)

theorem renderLines_no_newline {p : List (List String)} {ws : List Nat}
    (hc : ∀ row ∈ p, ∀ cell ∈ row, '\n' ∉ cell.data) :
    ∀ l ∈ (renderLines p ws).map String.data, '\n' ∉ l := by
  intro l hl
  obtain ⟨s, hs, rfl⟩ := List.mem_map.mp hl
  match p with
  | [] => simp [renderLines] at hs
  | a :: b =>
    simp only [renderLines] at hs
    rcases List.mem_cons.mp hs with rfl | hs
    · exact fmtRow_no_newline (hc a (List.mem_cons_self _ _))
    rcases List.mem_cons.mp hs with rfl | hs
    · exact sepRow_no_newline
    · obtain ⟨row, hrow, rfl⟩ := List.mem_map.mp hs
      exact fmtRow_no_newline (hc row (List.mem_cons_of_mem _ hrow))

theorem renderLines_length {p : List (List String)} {ws : List Nat} (h : p ≠ []) :
    (renderLines p ws).length = p.length + 1 := by
  match p, h with
  | a :: b, _ => simp [renderLines]

theorem renderLines_ne_nil {p : List (List String)} {ws : List Nat} (h : p ≠ []) :
    renderLines p ws ≠ [] := by
  match p, h with
  | a :: b, _ => simp [renderLines]

theorem processedRows_length (rows : List (List String)) :
    (processedRows rows).length = rows.length := by
  match rows with
  | [] => rfl
  | h :: t => rw [processedRows_cons]; simp

/-- C4 (amended): for every non-empty row sequence whose cells contain no
newline character, rows_to_markdown pads all rows to the maximum column
count, and the rendered output has exactly one more newline-separated line
than the number of input rows. The newline proviso is forced by the
counterexample below. -/
theorem c4_pad_and_line_count (rows : List (List String)) (hne : rows ≠ [])
    (hnl : ∀ row ∈ rows, ∀ cell ∈ row, '\n' ∉ cell.data) :
    ((rows_to_markdown rows).data.splitOn '\n').length = rows.length + 1 ∧
    ∀ row ∈ (rowsToMarkdownS rows).1, row.length = maxCols rows := by
  match rows, hne with
  | h :: t, _ =>
    refine ⟨?_, fun row hr => processed_row_lengths row hr⟩
    have hout : rows_to_markdown (h :: t) =
        pyJoin "\n" (renderLines (processedRows (h :: t))
          (colWidths (processedRows (h :: t)) (maxCols (h :: t)))) := rfl
    have hpne : processedRows (h :: t) ≠ [] := by rw [processedRows_cons]; simp
    rw [hout, pyJoin_data, show ("\n".data : List Char) = ['\n'] from rfl,
      @List.splitOn_intercalate _ _ instDecidableEqChar '\n'
        (renderLines_no_newline (processed_cells_no_newline hnl))
        (by simpa using renderLines_ne_nil hpne),
      List.length_map, renderLines_length hpne, processedRows_length]

/-- Counterexample to C4 as stated: a single-row table whose only cell
contains a newline renders to three lines, not two. -/
theorem c4_line_count_cex :
    ((rows_to_markdown [["a\nb"]]).data.splitOn '\n').length ≠ [["a\nb"]].length + 1 := by
  decide

/-- Witness for c4_pad_and_line_count at a concrete ragged table. -/
theorem c4_witness :
    ((rows_to_markdown [["a", "bb"], ["c"]]).data.splitOn '\n').length = 3 ∧
    ∀ row ∈ (rowsToMarkdownS [["a", "bb"], ["c"]]).1, row.length = 2 :=
  c4_pad_and_line_count [["a", "bb"], ["c"]] (by decide) (by decide)

/-- C5: every column width computed by rows_to_markdown is at least 3, and
rows_to_markdown on the single header row [["a","bb"]] yields exactly a
header line and a separator line, with no data lines. -/
theorem c5_column_widths :
    (∀ (rows : List (List String)) (n : Nat), ∀ w ∈ colWidths rows n, 3 ≤ w) ∧
    rows_to_markdown [["a", "bb"]] = "| a   | bb  |\n| --- | --- |" := by
  constructor
  · intro rows n w hw
    obtain ⟨w₀, _, rfl⟩ := List.mem_map.mp hw
    exact le_max_right _ _
  · decide

/-- Witness for c5_column_widths: the width of a five-character column. -/
theorem c5_witness : 3 ≤ 5 :=
  c5_column_widths.1 [["hello"]] 1 5 (by decide)

/-- C6: extract_query on a query div containing a non-breaking space
yields the normalized, trimmed query text. -/
theorem c6_query_extraction :
    extract_query "<div data-type=\"query\">SELECT *\xa0FROM T</div>" = some "SELECT * FROM T" := by
  decide

/-- C8: the fallback path splits the clipboard text into non-empty lines,
splits each line on tabs, and renders the rows with rows_to_markdown. -/
theorem c8_fallback_tsv :
    tsvRows "a\tb\nc\td" = [["a", "b"], ["c", "d"]] ∧
    fallbackMarkdown "a\tb\nc\td" = "| a   | b   |\n| --- | --- |\n| c   | d   |" := by
  decide

/-- C9: rows_to_markdown leaves its caller's list padded and linkified:
the post-call state of the argument is processedRows, every row of it has
maxCols cells, and the returned string is rendered from that state. -/
theorem c9_mutated_argument (rows : List (List String)) (hne : rows ≠ []) :
    (rowsToMarkdownS rows).1 = processedRows rows ∧
    (∀ row ∈ (rowsToMarkdownS rows).1, row.length = maxCols rows) ∧
    (rowsToMarkdownS rows).2 =
      pyJoin "\n" (renderLines (processedRows rows)
        (colWidths (processedRows rows) (maxCols rows))) := by
  match rows, hne with
  | h :: t, _ => exact ⟨rfl, fun row hr => processed_row_lengths row hr, rfl⟩

/-- Witness for c9_mutated_argument: the caller's rows change. -/
theorem c9_witness :
    (rowsToMarkdownS [["h"], ["x http://e.com/a/b"]]).1 =
      processedRows [["h"], ["x http://e.com/a/b"]] ∧
    processedRows [["h"], ["x http://e.com/a/b"]] ≠ [["h"], ["x http://e.com/a/b"]] :=
  ⟨(c9_mutated_argument [["h"], ["x http://e.com/a/b"]] (by decide)).1, by decide⟩

/-- C10 (amended): a th tag leaves the TableExtractor state unchanged, so
it never opens a cell; text is dropped whenever no td cell is open, so th
text reaches a cell only through an enclosing open td; a closing tr with
no collected cells appends no row; and a row made only of th cells
contributes no row to the output. The restriction to states with no open
td is forced by the counterexample below, where a th nested in an
unclosed td leaks its text into that td cell. -/
theorem c10_th_never_opens_cell :
    (∀ s : TableExtractor, TableExtractor.step s (.tagOpen "th".data) = s ∧
        TableExtractor.step s (.tagClose "th".data) = s) ∧
    (∀ (s : TableExtractor) (d : List Char), s.inTd = false →
        TableExtractor.step s (.text d) = s) ∧
    (∀ s : TableExtractor, s.currentRow = [] →
        (TableExtractor.step s (.tagClose "tr".data)).rows = s.rows) ∧
    tableRowsOf "<tr><th>x</th><th>y</th></tr>".data = [] := by
  refine ⟨fun s => ⟨?_, ?_⟩, fun s d h => ?_, fun s h => ?_, by decide⟩
  · simp only [TableExtractor.step]
    rw [if_neg (by decide), if_neg (by decide)]
  · simp only [TableExtractor.step]
    rw [if_neg (by decide), if_neg (by decide)]
  · simp only [TableExtractor.step, h]
    rfl
  · simp [TableExtractor.step, h]

/-- Counterexample to C10 as stated: on a fragment where a th element sits
inside a td cell that is never closed before it, the th text is collected
into that cell, so th text can reach a cell. -/
theorem c10_th_text_cex :
    tableRowsOf "<tr><td>a<th>x</th></td></tr>".data = [["ax"]] := by decide

/-- Witness for c10_th_never_opens_cell at the initial extractor state. -/
theorem c10_witness :
    TableExtractor.step TableExtractor.init (.text "x".data) = TableExtractor.init ∧
    (TableExtractor.step TableExtractor.init (.tagClose "tr".data)).rows =
      TableExtractor.init.rows :=
  ⟨c10_th_never_opens_cell.2.1 TableExtractor.init "x".data (by decide),
   c10_th_never_opens_cell.2.2.1 TableExtractor.init (by decide)⟩

/-- C3: extract_query and extract_table return none when their structural
marker is missing and never return an empty result; both are total Lean
functions, so no exception can escape them. -/
theorem c3_locators_tolerate_absence (html : String) :
    (firstOccur queryMarker html.data = none → extract_query html = none) ∧
    (∀ s, extract_query html = some s → s ≠ "") ∧
    (firstOccur tableOpen html.data = none → extract_table html = none) ∧
    (∀ rows, extract_table html = some rows → rows ≠ []) := by
  refine ⟨?_, ?_, ?_, ?_⟩
  · intro h
    have hqg : queryGroup html.data = none := by unfold queryGroup; rw [h]
    unfold extract_query
    rw [hqg]
  · intro s hs
    unfold extract_query at hs
    cases hqg : queryGroup html.data with
    | none => rw [hqg] at hs; exact absurd hs (by simp)
    | some inner =>
      rw [hqg] at hs
      simp only at hs
      split at hs
      · exact absurd hs (by simp)
      · rename_i hne
        obtain rfl : String.mk (pyStripL (replaceChar '\xa0' ' ' (textFromHtml inner))) = s :=
          Option.some.inj hs
        intro hcon
        exact hne (by simpa using congrArg String.data hcon)
  · intro h
    have htg : tableGroup html.data = none := by unfold tableGroup; rw [h]
    unfold extract_table
    rw [htg]
  · intro rows hs
    unfold extract_table at hs
    cases htg : tableGroup html.data with
    | none => rw [htg] at hs; exact absurd hs (by simp)
    | some inner =>
      rw [htg] at hs
      simp only at hs
      split at hs
      · exact absurd hs (by simp)
      · rename_i hne
        obtain rfl := Option.some.inj hs
        simpa using hne

/-- Witness for c3_locators_tolerate_absence on markerless and marker-full
inputs. -/
theorem c3_witness :
    extract_query "plain text" = none ∧
    extract_table "plain text" = none ∧
    "SELECT * FROM T" ≠ "" ∧
    [["ax"]] ≠ ([] : List (List String)) :=
  ⟨(c3_locators_tolerate_absence "plain text").1 (by decide),
   (c3_locators_tolerate_absence "plain text").2.2.1 (by decide),
   (c3_locators_tolerate_absence "<div data-type=\"query\">SELECT *\xa0FROM T</div>").2.1
     "SELECT * FROM T" (by decide),
   (c3_locators_tolerate_absence "<table><tr><td>ax</td></tr></table>").2.2.2
     [["ax"]] (by decide)⟩

/-- C2 (amended): extract_cluster_url scans the part of the document
before the query marker or, when the marker is absent, the first 3000
characters, while link extraction falls back to the first 2000 characters,
so the two fallback regions differ; within its region it returns the first
entity-decoded href URL not containing the query parameter marker, and
none when no such URL exists. The bound 3000 is forced by the
counterexample below. -/
theorem c2_cluster_url_region (html : String) :
    extract_cluster_url html =
      ((hrefFindall (headerRegionCluster html.data)).map
          (fun u => String.mk (pyUnescapeL u))).find?
        (fun u => !hasSubstr u "query=") ∧
    ((firstOccur queryMarker html.data).isSome →
      headerRegionCluster html.data = headerRegionLinks html.data) ∧
    (firstOccur queryMarker html.data = none →
      headerRegionCluster html.data = html.data.take 3000) := by
  refine ⟨?_, ?_, ?_⟩
  · unfold extract_cluster_url
    generalize hrefFindall (headerRegionCluster html.data) = us
    induction us with
    | nil => rfl
    | cons u rest ih =>
      rw [List.map_cons]
      by_cases hq : (firstOccur "query=".data (pyUnescapeL u)).isSome
      · rw [List.find?_cons_of_neg _ (by simp [hasSubstr, hq])]
        unfold firstNonQuery
        rw [if_pos hq]
        exact ih
      · have hq' : (firstOccur "query=".data (pyUnescapeL u)).isSome = false := by
          simpa using hq
        rw [List.find?_cons_of_pos _ (by simp [hasSubstr, hq'])]
        unfold firstNonQuery
        rw [if_neg hq]
  · intro hsome
    unfold headerRegionCluster headerRegionLinks
    cases hfo : firstOccur queryMarker html.data with
    | none => rw [hfo] at hsome; simp at hsome
    | some i => rfl
  · intro hnone
    unfold headerRegionCluster
    rw [hnone]

/-- Counterexample to C2 as stated: on a markerless document of 2500
characters the cluster-URL region keeps all 2500 characters while the
link-extraction region keeps only 2000, so the two regions are not the
same. -/
theorem c2_region_cex :
    headerRegionCluster (String.mk (List.replicate 2500 'x')).data ≠
      headerRegionLinks (String.mk (List.replicate 2500 'x')).data := by
  have hocc : ∀ n : Nat, firstOccur queryMarker (List.replicate n 'x') = none := by
    intro n
    induction n with
    | zero => decide
    | succ n ih =>
      rw [List.replicate_succ]
      have hpre : queryMarker.isPrefixOf ('x' :: List.replicate n 'x') = false := by
        rw [show queryMarker = '<' :: "div data-type=\"query\">".data from rfl]
        simp [List.isPrefixOf]
      simp [firstOccur, hpre, ih]
  intro heq
  unfold headerRegionCluster headerRegionLinks at heq
  rw [data_mk, hocc 2500] at heq
  simp only [List.take_replicate] at heq
  have := congrArg List.length heq
  simp only [List.length_replicate] at this
  omega

/-- Witness for c2_cluster_url_region on inputs with and without the query
marker. -/
theorem c2_witness :
    headerRegionCluster "<a href=\"https://cl.net/db\">c</a><div data-type=\"query\">z</div>".data =
      headerRegionLinks "<a href=\"https://cl.net/db\">c</a><div data-type=\"query\">z</div>".data ∧
    headerRegionCluster "plain text".data = "plain text".data.take 3000 ∧
    extract_cluster_url "<a href=\"https://cl.net/db\">c</a><div data-type=\"query\">z</div>" =
      ((hrefFindall (headerRegionCluster
          "<a href=\"https://cl.net/db\">c</a><div data-type=\"query\">z</div>".data)).map
        (fun u => String.mk (pyUnescapeL u))).find? (fun u => !hasSubstr u "query=") :=
  ⟨(c2_cluster_url_region "<a href=\"https://cl.net/db\">c</a><div data-type=\"query\">z</div>").2.1
     (by decide),
   (c2_cluster_url_region "plain text").2.2 (by decide),
   (c2_cluster_url_region "<a href=\"https://cl.net/db\">c</a><div data-type=\"query\">z</div>").1⟩

/-- C1 (amended): in rows_to_markdown any data-row cell (row index at
least 1) equal to the example text is rewritten to
"see [b/c](http://example.com/a/b/c) for details", the label being the
last two slash-delimited segments of the URL, while the header row is
passed through unchanged. The label b/c rather than a/b/c is forced by
the counterexample below. -/
theorem c1_data_cell_linkified (rows : List (List String)) (r c : Nat) :
    (1 ≤ r →
      cellAt (padStep rows) r c = some "see http://example.com/a/b/c for details" →
      cellAt (rowsToMarkdownS rows).1 r c =
        some "see [b/c](http://example.com/a/b/c) for details") ∧
    cellAt (rowsToMarkdownS rows).1 0 c = cellAt (padStep rows) 0 c := by
  match rows with
  | [] =>
    constructor
    · intro _ hcell
      simp [cellAt, padStep] at hcell
    · rfl
  | h :: t =>
    have h1 : (rowsToMarkdownS (h :: t)).1 = processedRows (h :: t) := rfl
    constructor
    · intro hr hcell
      obtain ⟨r', rfl⟩ : ∃ r', r = r' + 1 := ⟨r - 1, by omega⟩
      rw [h1, processedRows_cons]
      unfold cellAt at hcell ⊢
      simp only [padStep, List.map_cons] at hcell
      rw [List.getElem?_cons_succ] at hcell
      rw [List.getElem?_cons_succ, List.getElem?_map]
      cases hrow : (t.map (padRow (maxCols (h :: t))))[r']? with
      | none => rw [hrow] at hcell; simp at hcell
      | some row =>
        rw [hrow] at hcell
        replace hcell : row[c]? = some "see http://example.com/a/b/c for details" := hcell
        show (row.map linkifyCell)[c]? = _
        rw [List.getElem?_map, hcell]
        decide
    · rw [h1, processedRows_cons]
      unfold cellAt
      simp only [padStep, List.map_cons]
      rw [List.getElem?_cons_zero, List.getElem?_cons_zero]

/-- Counterexample to C1 as stated: the data cell is rewritten with label
b/c, the last two segments of the slash-split URL, not a/b/c. -/
theorem c1_label_cex :
    cellAt (rowsToMarkdownS [["h"], ["see http://example.com/a/b/c for details"]]).1 1 0 =
      some "see [b/c](http://example.com/a/b/c) for details" ∧
    "see [b/c](http://example.com/a/b/c) for details" ≠
      "see [a/b/c](http://example.com/a/b/c) for details" :=
  ⟨by decide, by decide⟩

/-- Witness for c1_data_cell_linkified at a concrete table, for both the
data-row and the header-row conjunct. -/
theorem c1_witness :
    cellAt (rowsToMarkdownS [["h"], ["see http://example.com/a/b/c for details"]]).1 1 0 =
      some "see [b/c](http://example.com/a/b/c) for details" ∧
    cellAt (rowsToMarkdownS [["see http://example.com/a/b/c for details"], ["z"]]).1 0 0 =
      cellAt (padStep [["see http://example.com/a/b/c for details"], ["z"]]) 0 0 :=
  ⟨(c1_data_cell_linkified [["h"], ["see http://example.com/a/b/c for details"]] 1 0).1
     (by decide) (by decide),
   (c1_data_cell_linkified [["see http://example.com/a/b/c for details"], ["z"]] 0 0).2⟩

/-- C7: with a non-empty query and no links, cluster URL, or table,
build_markdown emits the Query heading followed immediately by the fenced
kql code block holding the query text, and nothing else. -/
theorem c7_query_only_section (q : String) (h : q ≠ "") :
    build_markdown [] none (some q) none = "### Query\n\n```kql\n" ++ q ++ "\n```" := by
  have hq : (q != "") = true := bne_iff_ne.mpr h
  unfold build_markdown
  simp only [List.isEmpty_nil, optTruthy, Bool.not_true, Bool.or_false, Bool.false_or,
    Bool.not_false, Bool.and_true, Bool.true_and, Bool.and_self, hq, if_true, if_false,
    ite_true, ite_false, List.nil_append, List.append_nil]
  apply String.ext
  simp only [pyJoin_data, List.map_cons, List.map_nil, String.data_append,
    List.intercalate, List.intersperse, List.flatten, List.append_assoc, List.append_nil]
  rfl

/-- Witness for c7_query_only_section at a one-character query. -/
theorem c7_witness :
    build_markdown [] none (some "x") none = "### Query\n\n```kql\nx\n```" :=
  c7_query_only_section "x" (by decide)

end Kusto2md
